import Mathlib

/-!
The fishhook patcher: `writeExecutableMemory` (src/fishhook/_asmmodule.c)

A shallow embedding of the executable-memory patcher.  The C file is compiled in one of
several configurations (`_WIN32` or not, `__builtin___clear_cache` present or not); the
configuration and the operating system are explicit parameters (`Env`).  Memory is a byte map,
page protection is a map from page numbers to the protection word the operating system last
gave the page, and every operating-system call made by the code is appended to a trace.  A
protection call may be refused, and a refused call may already have changed some pages of its
range.

Machine integers are natural numbers reduced modulo `2^64` where the C type is
`unsigned long long` or `size_t` (LP64), and `int` values are integers.
-/

namespace Fishhook

/-! ## Build configuration and operating system -/

/-- The two preprocessor branches selected by `_WIN32`. -/
inductive Platform where
  | posix
  | win32
deriving DecidableEq

/-- Build configuration and operating-system behaviour seen by one call. -/
structure Env where
  /-- Which side of `#if !defined(_WIN32)` is compiled. -/
  platform : Platform
  /-- Whether `defined(__has_builtin)` and `__has_builtin(__builtin___clear_cache)` both hold
  (only consulted on the POSIX side). -/
  clear_cache : Bool
  /-- The value stored in `int pagesize` by `sysconf(_SC_PAGE_SIZE)`; also the size of the
  pages on which the operating system keeps protections. -/
  pagesize : Int
  /-- Whether the operating system accepts a protection call with the given address, length
  and protection word (`mprotect` returning `0`, `VirtualProtect` returning nonzero). -/
  permits : Nat → Nat → Nat → Bool
  /-- For a protection call that is refused: whether the page with the given number (last
  argument) had its protection changed before the call failed.  POSIX allows `mprotect` to
  fail after changing some of the pages of the range. -/
  partly : Nat → Nat → Nat → Nat → Bool

/-- `PROT_READ` of `<sys/mman.h>`. -/
def PROT_READ : Nat := 1
/-- `PROT_WRITE` of `<sys/mman.h>`. -/
def PROT_WRITE : Nat := 2
/-- `PROT_EXEC` of `<sys/mman.h>`. -/
def PROT_EXEC : Nat := 4

/-- `PAGE_READONLY` of `<winnt.h>`. -/
def PAGE_READONLY : Nat := 0x02
/-- `PAGE_READWRITE` of `<winnt.h>`. -/
def PAGE_READWRITE : Nat := 0x04
/-- `PAGE_EXECUTE_READ` of `<winnt.h>`. -/
def PAGE_EXECUTE_READ : Nat := 0x20
/-- `PAGE_EXECUTE_READWRITE` of `<winnt.h>`. -/
def PAGE_EXECUTE_READWRITE : Nat := 0x40

/-- Global `PREAD` (lines 15 and 19). -/
def PREAD : Platform → Nat
  | .posix => PROT_READ
  | .win32 => 1 <<< 1

/-- Global `PWRITE` (lines 16 and 20). -/
def PWRITE : Platform → Nat
  | .posix => PROT_WRITE
  | .win32 => 1 <<< 2

/-- Global `PEXEC` (lines 17 and 21). -/
def PEXEC : Platform → Nat
  | .posix => PROT_EXEC
  | .win32 => 1 <<< 3

/-! ## Machine arithmetic -/

/-- Reduction to an unsigned 64-bit value (`unsigned long long`, `size_t`). -/
def wrap64 (n : Nat) : Nat := n % 2 ^ 64

/-- Conversion of an `int` to `unsigned long long` (sign extension, then modulo `2^64`). -/
def toULL (x : Int) : Nat := (x % 2 ^ 64).toNat

/-- The C operator `~` on a two's complement `int`. -/
def notInt (x : Int) : Int := -x - 1

/-- Unsigned 64-bit subtraction `x - y`. -/
def sub64 (x y : Nat) : Nat := (x + 2 ^ 64 - y) % 2 ^ 64

/-! ## The world: bytes, page protections, trace of system calls -/

/-- One call into the operating system or the C library. -/
inductive Effect where
  /-- `mprotect(addr, len, prot)` or `VirtualProtect(addr, len, prot, &old)`, with whether
  the call reported success. -/
  | protect (addr len prot : Nat) (ok : Bool)
  /-- `memcpy(dst, src, n)`. -/
  | copy (dst n : Nat)
  /-- `__builtin___clear_cache(first, past)`. -/
  | clear_cache (first past : Nat)
  /-- `FlushInstructionCache(GetCurrentProcess(), addr, len)`. -/
  | FlushInstructionCache (addr len : Nat)
deriving DecidableEq

/-- Process state observed by the patcher. -/
structure World where
  /-- The byte stored at each address. -/
  mem : Nat → Nat
  /-- The protection word of each page, indexed by page number (`address / pagesize`). -/
  prot : Nat → Nat
  /-- The calls made so far, oldest first. -/
  trace : List Effect

/-- The fields of a `Py_buffer` that the code reads. -/
structure Py_buffer where
  /-- `buf`: the address of the first byte. -/
  buf : Nat
  /-- `len`: the number of bytes (a non-negative `Py_ssize_t`). -/
  len : Nat

/-- Whether page number `p` contains at least one byte of `[addr, addr + len)`. -/
def touches (ps addr len p : Nat) : Bool :=
  decide (0 < len) && (decide (addr / ps ≤ p) && decide (p ≤ (addr + len - 1) / ps))

/-- The operating system's protection call.  When it is accepted, every page containing a
byte of `[addr, addr + len)` takes the protection word `prot`.  When it is refused, the pages
of the range that the system had already changed (`Env.partly`) have taken it and the others
keep theirs.  Pages outside the range are never changed.  The outcome reported by the call is
recorded in the trace. -/
def osProtect (env : Env) (w : World) (addr len prot : Nat) : World :=
  { w with
    prot := fun p =>
      if (env.permits addr len prot || env.partly addr len prot p) &&
          touches env.pagesize.toNat addr len p then prot
      else w.prot p
    trace := w.trace ++ [Effect.protect addr len prot (env.permits addr len prot)] }

/-- Storing a byte sequence at consecutive addresses, lowest address first. -/
def store (mem : Nat → Nat) (dst : Nat) : List Nat → Nat → Nat
  | [] => mem
  | b :: bs => store (fun a => if a = dst then b else mem a) (dst + 1) bs

/-- Reading `n` consecutive bytes starting at `addr`. -/
def load (mem : Nat → Nat) (addr : Nat) : Nat → List Nat
  | 0 => []
  | n + 1 => mem addr :: load mem (addr + 1) n

/-- `memcpy(dst, src, n)`: the first `n` bytes of the source buffer are stored at `dst`.  The
source buffer is given by its contents; it does not overlap the destination (which `memcpy`
requires).  This is what the call does when every page of the destination is writable
(`writable`); a store to a page without write permission kills the process instead, so a
statement that the copy took place after a refused protection call carries that
hypothesis. -/
def memcpy (w : World) (dst : Nat) (src : List Nat) (n : Nat) : World :=
  { w with
    mem := store w.mem dst (src.take n)
    trace := w.trace ++ [Effect.copy dst n] }

/-! ## The code -/

/-- `address & ~(pagesize - 1)` (line 29). -/
def addr_align (pagesize : Int) (address : Nat) : Nat :=
  address &&& toULL (notInt (pagesize - 1))

/-- The variable `mem_end` after lines 30–33. -/
def mem_end (pagesize : Int) (address length : Nat) : Nat :=
  let mem_end := wrap64 (address + length) &&& toULL (notInt (pagesize - 1))
  if wrap64 (address + length) > mem_end then wrap64 (mem_end + toULL pagesize) else mem_end

/-- `size_t memlen = mem_end - addr_align` (line 34). -/
def memlen (pagesize : Int) (address length : Nat) : Nat :=
  sub64 (mem_end pagesize address length) (addr_align pagesize address)

/-- The `flags` chosen by the if-chain of lines 39–47. -/
def flags (prots : Nat) : Nat :=
  if prots &&& PREAD .win32 ≠ 0 ∧ prots &&& PWRITE .win32 ≠ 0 ∧ prots &&& PEXEC .win32 ≠ 0 then
    PAGE_EXECUTE_READWRITE
  else if prots &&& PREAD .win32 ≠ 0 ∧ prots &&& PWRITE .win32 ≠ 0 then
    PAGE_READWRITE
  else if prots &&& PREAD .win32 ≠ 0 ∧ prots &&& PEXEC .win32 ≠ 0 then
    PAGE_EXECUTE_READ
  else
    PAGE_READONLY

/-- `changeProts` (lines 24–50).  The result of the system call is discarded, as in the
source, whose return type is `void`. -/
def changeProts (env : Env) (w : World) (buffer : Py_buffer) (prots : Nat) : World :=
  let address := wrap64 buffer.buf
  let length := wrap64 buffer.len
  match env.platform with
  | .posix =>
    let pagesize := env.pagesize
    osProtect env w (addr_align pagesize address) (memlen pagesize address length) prots
  | .win32 =>
    osProtect env w address length (flags prots)

/-- `invalidateInstructionCache` (lines 52–64).  The end pointer `addr + length` of line 57 is
computed on a 64-bit pointer. -/
def invalidateInstructionCache (env : Env) (w : World) (addr length : Nat) : World :=
  match env.platform with
  | .win32 => { w with trace := w.trace ++ [Effect.FlushInstructionCache addr length] }
  | .posix =>
    if env.clear_cache then
      { w with trace := w.trace ++ [Effect.clear_cache addr (wrap64 (addr + length))] }
    else
      w

/-- What the method hands back to the interpreter. -/
inductive PyResult where
  /-- `Py_RETURN_NONE`. -/
  | Py_None
  /-- `NULL`, with the named exception and message set. -/
  | raised (exc msg : String)
deriving DecidableEq

/-- `method_writeExecutableMemory` (lines 66–98), after its arguments have been parsed and
both buffers obtained: `target_buf`, the contents `src` of `src_buf` (so that
`src_buf.len = src.length`), and `prot_after` when the caller passed it. -/
def method_writeExecutableMemory (env : Env) (w : World) (target_buf : Py_buffer)
    (src : List Nat) (prot_after : Option Nat) : World × PyResult :=
  let prot_after := prot_after.getD (PREAD env.platform ||| PEXEC env.platform)
  if target_buf.len ≠ src.length then
    (w, PyResult.raised "ValueError" "target and src must be the same length")
  else
    let w := changeProts env w target_buf (PREAD env.platform ||| PWRITE env.platform)
    let w := memcpy w target_buf.buf src target_buf.len
    let w := changeProts env w target_buf prot_after
    let w := invalidateInstructionCache env w target_buf.buf target_buf.len
    (w, PyResult.Py_None)

/-! ## What a Windows protection constant grants (documented meaning of `PAGE_*`) -/

/-- Whether a `PAGE_*` constant allows writing. -/
def pageGrantsWrite (f : Nat) : Bool :=
  decide (f = PAGE_READWRITE) || decide (f = PAGE_EXECUTE_READWRITE)

/-- Whether a `PAGE_*` constant allows execution. -/
def pageGrantsExec (f : Nat) : Bool :=
  decide (f = PAGE_EXECUTE_READ) || decide (f = PAGE_EXECUTE_READWRITE)

/-- Whether a `PAGE_*` constant allows reading. -/
def pageGrantsRead (f : Nat) : Bool :=
  decide (f = PAGE_READONLY) || decide (f = PAGE_READWRITE) ||
    decide (f = PAGE_EXECUTE_READ) || decide (f = PAGE_EXECUTE_READWRITE)

/-- Whether a page with the given protection word can be stored to: `PROT_WRITE` is set on
POSIX, the `PAGE_*` constant allows writing on Windows. -/
def writable : Platform → Nat → Bool
  | .posix, word => decide (word &&& PROT_WRITE ≠ 0)
  | .win32, word => pageGrantsWrite word

/-- A POSIX build with `__builtin___clear_cache`, 4096-byte pages, every call accepted. -/
def posix4k : Env := ⟨Platform.posix, true, 4096, fun _ _ _ => true, fun _ _ _ _ => false⟩

/-- A POSIX build with 4096-byte pages on which every protection call is refused and changes
no page. -/
def posixRefusing : Env :=
  ⟨Platform.posix, true, 4096, fun _ _ _ => false, fun _ _ _ _ => false⟩

/-- A POSIX build with 4096-byte pages on which every protection call is refused after it has
changed the even-numbered pages of its range. -/
def posixHalfway : Env :=
  ⟨Platform.posix, true, 4096, fun _ _ _ => false, fun _ _ _ p => decide (p % 2 = 0)⟩

/-- Zeroed memory whose pages are all readable and writable (`PROT_READ | PROT_WRITE`). -/
def zeroedRW : World := ⟨fun _ => 0, fun _ => 3, []⟩

/-- Zeroed memory whose pages are all read-only (`PROT_READ`). -/
def zeroedRO : World := ⟨fun _ => 0, fun _ => 1, []⟩

/-- A Windows build with 4096-byte pages, every call accepted. -/
def win4k : Env := ⟨Platform.win32, false, 4096, fun _ _ _ => true, fun _ _ _ _ => false⟩

theorem land_mask (a k : Nat) (ha : a < 2^64) (hk : k ≤ 64) :
    a &&& (2^64 - 2^k) = a - a % 2^k := by
  apply Nat.eq_of_testBit_eq
  intro i
  have h1 : 2^64 - 2^k = 2^k * (2^(64-k) - 1) := by
    rw [Nat.mul_sub, ← pow_add, Nat.add_sub_cancel' hk, mul_one]
  have h2 : a - a % 2^k = 2^k * (a >>> k) := by
    have := Nat.div_add_mod a (2^k)
    rw [Nat.shiftRight_eq_div_pow]
    omega
  rw [Nat.testBit_and, h1, h2, Nat.testBit_mul_pow_two, Nat.testBit_mul_pow_two,
    Nat.testBit_two_pow_sub_one, Nat.testBit_shiftRight]
  by_cases hik : k ≤ i
  · have e : k + (i - k) = i := by omega
    by_cases h64 : i < 64
    · have : i - k < 64 - k := by omega
      simp [hik, e, this]
    · have : a.testBit i = false := by
        apply Nat.testBit_lt_two_pow
        exact lt_of_lt_of_le ha (Nat.pow_le_pow_right (by decide) (by omega))
      simp [hik, e, this]
  · simp [hik]

theorem pow_bounds {ps k : Nat} (hps : ps = 2 ^ k) (hk : k ≤ 30) : 0 < ps ∧ ps ≤ 2 ^ 30 := by
  subst hps
  exact ⟨Nat.pos_pow_of_pos k (by decide), Nat.pow_le_pow_right (by decide) hk⟩

theorem toULL_mask {ps : Nat} (h0 : 0 < ps) (h1 : ps ≤ 2 ^ 30) :
    toULL (notInt ((ps : Int) - 1)) = 2 ^ 64 - ps := by
  unfold toULL notInt
  norm_num at h1 ⊢
  omega

theorem toULL_natCast {ps : Nat} (h1 : ps ≤ 2 ^ 30) : toULL (ps : Int) = ps := by
  unfold toULL
  norm_num at h1 ⊢
  omega

theorem addr_align_spec {ps k a : Nat} (hps : ps = 2 ^ k) (hk : k ≤ 30) (ha : a < 2 ^ 64) :
    addr_align (ps : Int) a = ps * (a / ps) := by
  obtain ⟨h0, h1⟩ := pow_bounds hps hk
  unfold addr_align
  rw [toULL_mask h0 h1, hps, land_mask a k ha (by omega)]
  have := Nat.div_add_mod a (2 ^ k)
  omega

/-- Rounding up to a multiple of `ps`. -/
theorem ceil_mul {ps : Nat} (h0 : 0 < ps) (e : Nat) :
    ps * ((e + ps - 1) / ps) = if e % ps = 0 then e else e - e % ps + ps := by
  have hd := Nat.div_add_mod e ps
  have hr := Nat.mod_lt e h0
  by_cases h : e % ps = 0
  · rw [if_pos h]
    have : (e + ps - 1) / ps = e / ps := by
      apply Nat.div_eq_of_lt_le
      · rw [Nat.mul_comm]; omega
      · rw [Nat.succ_mul, Nat.mul_comm]; omega
    rw [this]; omega
  · rw [if_neg h]
    have : (e + ps - 1) / ps = e / ps + 1 := by
      apply Nat.div_eq_of_lt_le
      · rw [Nat.add_mul, Nat.mul_comm]; omega
      · rw [Nat.succ_mul, Nat.add_mul, Nat.mul_comm]; omega
    rw [this, Nat.mul_add]; omega

theorem ceil_le {ps : Nat} (h0 : 0 < ps) (e : Nat) :
    e ≤ ps * ((e + ps - 1) / ps) ∧ ps * ((e + ps - 1) / ps) < e + ps := by
  rw [ceil_mul h0]
  have hr := Nat.mod_lt e h0
  have := Nat.mod_le e ps
  split <;> omega

theorem lt_ceil_iff {ps : Nat} (h0 : 0 < ps) (e p : Nat) :
    p < (e + ps - 1) / ps ↔ p * ps < e := by
  have hc := ceil_le h0 e
  constructor
  · intro h
    have := (Nat.le_div_iff_mul_le h0).1 h
    rw [Nat.succ_mul] at this
    omega
  · intro h
    have h2 : p * ps < ps * ((e + ps - 1) / ps) := by omega
    rw [Nat.mul_comm] at h2
    exact Nat.lt_of_mul_lt_mul_left h2

theorem mem_end_spec {ps k a n : Nat} (hps : ps = 2 ^ k) (hk : k ≤ 30)
    (h : a + n < 2 ^ 64) :
    mem_end (ps : Int) a n = (ps * ((a + n + ps - 1) / ps)) % 2 ^ 64 := by
  obtain ⟨h0, h1⟩ := pow_bounds hps hk
  have hw : wrap64 (a + n) = a + n := Nat.mod_eq_of_lt h
  have hm : (a + n) &&& toULL (notInt ((ps : Int) - 1)) = a + n - (a + n) % ps := by
    rw [toULL_mask h0 h1, hps, land_mask (a + n) k h (by omega)]
  have hle := Nat.mod_le (a + n) ps
  unfold mem_end
  simp only [hw, hm, toULL_natCast h1, ceil_mul h0]
  by_cases hz : (a + n) % ps = 0
  · rw [if_pos hz, if_neg (by omega), hz, Nat.sub_zero, Nat.mod_eq_of_lt h]
  · rw [if_neg hz, if_pos (by omega)]
    rfl

theorem memlen_spec {ps k a n : Nat} (hps : ps = 2 ^ k) (hk : k ≤ 30)
    (h : a + n < 2 ^ 64) :
    memlen (ps : Int) a n = (ps * ((a + n + ps - 1) / ps) - ps * (a / ps)) % 2 ^ 64 := by
  obtain ⟨h0, h1⟩ := pow_bounds hps hk
  have hc := ceil_le h0 (a + n)
  have hd := Nat.div_add_mod a ps
  have hdvd : 2 ^ k ∣ 2 ^ 64 := Nat.pow_dvd_pow 2 (by omega)
  rw [← hps] at hdvd
  obtain ⟨c, hc2⟩ := hdvd
  have hE : ps * ((a + n + ps - 1) / ps) ≤ 2 ^ 64 := by
    rw [hc2]
    apply Nat.mul_le_mul_left
    by_contra hcon
    have : ps * (c + 1) ≤ ps * ((a + n + ps - 1) / ps) := Nat.mul_le_mul_left _ (by omega)
    rw [Nat.mul_add] at this
    omega
  unfold memlen sub64
  rw [mem_end_spec hps hk h, addr_align_spec hps hk (by omega)]
  generalize ps * ((a + n + ps - 1) / ps) = E at *
  generalize ps * (a / ps) = A at *
  norm_num at *
  omega

theorem touches_iff {ps : Nat} (h0 : 0 < ps) (addr len p : Nat) :
    touches ps addr len p = true ↔ 0 < len ∧ addr / ps ≤ p ∧ p * ps < addr + len := by
  unfold touches
  simp only [Bool.and_eq_true, decide_eq_true_eq]
  constructor
  · rintro ⟨hl, h1, h2⟩
    refine ⟨hl, h1, ?_⟩
    have := (Nat.le_div_iff_mul_le h0).1 h2
    omega
  · rintro ⟨hl, h1, h2⟩
    refine ⟨hl, h1, ?_⟩
    apply (Nat.le_div_iff_mul_le h0).2
    omega

/-- The pages of the range computed by the POSIX branch, when its length did not wrap. -/
theorem touches_range {ps : Nat} (h0 : 0 < ps) (a n p : Nat) :
    touches ps (ps * (a / ps)) (ps * ((a + n + ps - 1) / ps) - ps * (a / ps)) p = true ↔
      a / ps ≤ p ∧ p * ps < a + n := by
  have hc := ceil_le h0 (a + n)
  have hd := Nat.div_add_mod a ps
  have hr := Nat.mod_lt a h0
  rw [touches_iff h0, Nat.mul_div_cancel_left _ h0]
  have key : p * ps < ps * ((a + n + ps - 1) / ps) ↔ p * ps < a + n := by
    constructor
    · intro h
      have h' : p < (a + n + ps - 1) / ps := by
        rw [Nat.mul_comm] at h
        exact Nat.lt_of_mul_lt_mul_left h
      have := (Nat.le_div_iff_mul_le h0).1 h'
      rw [Nat.succ_mul] at this
      omega
    · intro h; omega
  constructor
  · rintro ⟨_, h1, h2⟩
    refine ⟨h1, key.1 ?_⟩
    omega
  · rintro ⟨h1, h2⟩
    have h3 := key.2 h2
    have h4 : a / ps * ps ≤ p * ps := Nat.mul_le_mul_right _ h1
    rw [Nat.mul_comm (a / ps)] at h4
    refine ⟨by omega, h1, by omega⟩

theorem posix_range_touches {ps k a n : Nat} (hps : ps = 2 ^ k) (hk : k ≤ 30)
    (h : a + n < 2 ^ 64) (hn : n < 2 ^ 63) (p : Nat) :
    touches ps (addr_align (ps : Int) a) (memlen (ps : Int) a n) p = true ↔
      a / ps ≤ p ∧ p * ps < a + n := by
  obtain ⟨h0, h1⟩ := pow_bounds hps hk
  have hc := ceil_le h0 (a + n)
  have hd := Nat.div_add_mod a ps
  have hr := Nat.mod_lt a h0
  have hL : memlen (ps : Int) a n = ps * ((a + n + ps - 1) / ps) - ps * (a / ps) := by
    rw [memlen_spec hps hk h]
    apply Nat.mod_eq_of_lt
    norm_num at *
    omega
  rw [hL, addr_align_spec hps hk (by omega)]
  exact touches_range h0 a n p

theorem store_outside (bs : List Nat) (mem : Nat → Nat) (dst a : Nat)
    (h : a < dst ∨ dst + bs.length ≤ a) : store mem dst bs a = mem a := by
  induction bs generalizing mem dst with
  | nil => rfl
  | cons b bs ih =>
    simp only [store, List.length_cons] at h ⊢
    rw [ih _ _ (by omega)]
    have : a ≠ dst := by omega
    simp [this]

theorem load_store (bs : List Nat) (mem : Nat → Nat) (dst : Nat) :
    load (store mem dst bs) dst bs.length = bs := by
  induction bs generalizing mem dst with
  | nil => rfl
  | cons b bs ih =>
    simp only [store, List.length_cons, load]
    rw [ih, store_outside _ _ _ _ (Or.inl (Nat.lt_succ_self dst))]
    simp

theorem osProtect_mem (env : Env) (w : World) (a l p : Nat) :
    (osProtect env w a l p).mem = w.mem := rfl

theorem osProtect_trace (env : Env) (w : World) (a l p : Nat) :
    (osProtect env w a l p).trace = w.trace ++ [Effect.protect a l p (env.permits a l p)] :=
  rfl

theorem osProtect_prot (env : Env) (w : World) (a l p q : Nat) :
    (osProtect env w a l p).prot q =
      if (env.permits a l p = true ∨ env.partly a l p q = true) ∧
          touches env.pagesize.toNat a l q = true then p
      else w.prot q := by
  unfold osProtect
  simp only [Bool.and_eq_true, Bool.or_eq_true]

theorem changeProts_posix {env : Env} (h : env.platform = Platform.posix) (w : World)
    (b : Py_buffer) (p : Nat) :
    changeProts env w b p =
      osProtect env w (addr_align env.pagesize (wrap64 b.buf))
        (memlen env.pagesize (wrap64 b.buf) (wrap64 b.len)) p := by
  unfold changeProts; rw [h]

theorem changeProts_win32 {env : Env} (h : env.platform = Platform.win32) (w : World)
    (b : Py_buffer) (p : Nat) :
    changeProts env w b p = osProtect env w (wrap64 b.buf) (wrap64 b.len) (flags p) := by
  unfold changeProts; rw [h]

theorem changeProts_mem (env : Env) (w : World) (b : Py_buffer) (p : Nat) :
    (changeProts env w b p).mem = w.mem := by
  cases h : env.platform
  · rw [changeProts_posix h, osProtect_mem]
  · rw [changeProts_win32 h, osProtect_mem]

theorem invalidate_mem (env : Env) (w : World) (a l : Nat) :
    (invalidateInstructionCache env w a l).mem = w.mem := by
  unfold invalidateInstructionCache; split
  · rfl
  · split <;> rfl

theorem invalidate_prot (env : Env) (w : World) (a l : Nat) :
    (invalidateInstructionCache env w a l).prot = w.prot := by
  unfold invalidateInstructionCache; split
  · rfl
  · split <;> rfl

theorem method_equal_len (env : Env) (w : World) (t : Py_buffer) (src : List Nat)
    (pa : Option Nat) (heq : t.len = src.length) :
    method_writeExecutableMemory env w t src pa =
      (invalidateInstructionCache env
        (changeProts env
          (memcpy (changeProts env w t (PREAD env.platform ||| PWRITE env.platform))
            t.buf src t.len)
          t (pa.getD (PREAD env.platform ||| PEXEC env.platform)))
        t.buf t.len, PyResult.Py_None) := by
  unfold method_writeExecutableMemory
  simp [heq]

theorem method_mismatch (env : Env) (w : World) (t : Py_buffer) (src : List Nat)
    (pa : Option Nat) (hne : ¬ t.len = src.length) :
    method_writeExecutableMemory env w t src pa =
      (w, PyResult.raised "ValueError" "target and src must be the same length") := by
  unfold method_writeExecutableMemory
  simp [hne]

theorem method_mem (env : Env) (w : World) (t : Py_buffer) (src : List Nat)
    (pa : Option Nat) (heq : t.len = src.length) :
    (method_writeExecutableMemory env w t src pa).1.mem = store w.mem t.buf src := by
  rw [method_equal_len env w t src pa heq]
  simp only [invalidate_mem, changeProts_mem, memcpy, heq, List.take_length]

theorem invalidate_trace_posix {env : Env} (h : env.platform = Platform.posix) (w : World)
    (a l : Nat) :
    (invalidateInstructionCache env w a l).trace =
      w.trace ++
        (if env.clear_cache then [Effect.clear_cache a (wrap64 (a + l))] else []) := by
  unfold invalidateInstructionCache; rw [h]
  by_cases hc : env.clear_cache = true <;> simp [hc]

theorem invalidate_trace_win32 {env : Env} (h : env.platform = Platform.win32) (w : World)
    (a l : Nat) :
    (invalidateInstructionCache env w a l).trace =
      w.trace ++ [Effect.FlushInstructionCache a l] := by
  unfold invalidateInstructionCache; rw [h]

theorem method_trace_posix {env : Env} (h : env.platform = Platform.posix) (w : World)
    (t : Py_buffer) (src : List Nat) (pa : Option Nat) (heq : t.len = src.length) :
    (method_writeExecutableMemory env w t src pa).1.trace =
      w.trace ++
        [Effect.protect (addr_align env.pagesize (wrap64 t.buf))
            (memlen env.pagesize (wrap64 t.buf) (wrap64 t.len)) (PROT_READ ||| PROT_WRITE)
            (env.permits (addr_align env.pagesize (wrap64 t.buf))
              (memlen env.pagesize (wrap64 t.buf) (wrap64 t.len)) (PROT_READ ||| PROT_WRITE)),
          Effect.copy t.buf t.len,
          Effect.protect (addr_align env.pagesize (wrap64 t.buf))
            (memlen env.pagesize (wrap64 t.buf) (wrap64 t.len))
            (pa.getD (PROT_READ ||| PROT_EXEC))
            (env.permits (addr_align env.pagesize (wrap64 t.buf))
              (memlen env.pagesize (wrap64 t.buf) (wrap64 t.len))
              (pa.getD (PROT_READ ||| PROT_EXEC)))] ++
        (if env.clear_cache then [Effect.clear_cache t.buf (wrap64 (t.buf + t.len))]
          else []) := by
  rw [method_equal_len env w t src pa heq]
  simp only [invalidate_trace_posix h, changeProts_posix h, osProtect_trace, memcpy, h, PREAD,
    PWRITE, PEXEC, List.append_assoc, List.singleton_append, List.cons_append, List.nil_append]

theorem method_trace_win32 {env : Env} (h : env.platform = Platform.win32) (w : World)
    (t : Py_buffer) (src : List Nat) (pa : Option Nat) (heq : t.len = src.length) :
    (method_writeExecutableMemory env w t src pa).1.trace =
      w.trace ++
        [Effect.protect (wrap64 t.buf) (wrap64 t.len) PAGE_READWRITE
            (env.permits (wrap64 t.buf) (wrap64 t.len) PAGE_READWRITE),
          Effect.copy t.buf t.len,
          Effect.protect (wrap64 t.buf) (wrap64 t.len)
            (flags (pa.getD (PREAD Platform.win32 ||| PEXEC Platform.win32)))
            (env.permits (wrap64 t.buf) (wrap64 t.len)
              (flags (pa.getD (PREAD Platform.win32 ||| PEXEC Platform.win32)))),
          Effect.FlushInstructionCache t.buf t.len] := by
  have hrw : flags (PREAD Platform.win32 ||| PWRITE Platform.win32) = PAGE_READWRITE := by
    decide
  rw [method_equal_len env w t src pa heq]
  simp only [invalidate_trace_win32 h, changeProts_win32 h, osProtect_trace, memcpy, h, hrw,
    List.append_assoc, List.singleton_append, List.cons_append, List.nil_append]

theorem method_prot_posix {env : Env} (h : env.platform = Platform.posix) (w : World)
    (t : Py_buffer) (src : List Nat) (pa : Option Nat) (heq : t.len = src.length) (q : Nat) :
    (method_writeExecutableMemory env w t src pa).1.prot q =
      if (env.permits (addr_align env.pagesize (wrap64 t.buf))
              (memlen env.pagesize (wrap64 t.buf) (wrap64 t.len))
              (pa.getD (PROT_READ ||| PROT_EXEC)) = true ∨
            env.partly (addr_align env.pagesize (wrap64 t.buf))
              (memlen env.pagesize (wrap64 t.buf) (wrap64 t.len))
              (pa.getD (PROT_READ ||| PROT_EXEC)) q = true) ∧
          touches env.pagesize.toNat (addr_align env.pagesize (wrap64 t.buf))
            (memlen env.pagesize (wrap64 t.buf) (wrap64 t.len)) q = true
      then pa.getD (PROT_READ ||| PROT_EXEC)
      else if (env.permits (addr_align env.pagesize (wrap64 t.buf))
              (memlen env.pagesize (wrap64 t.buf) (wrap64 t.len))
              (PROT_READ ||| PROT_WRITE) = true ∨
            env.partly (addr_align env.pagesize (wrap64 t.buf))
              (memlen env.pagesize (wrap64 t.buf) (wrap64 t.len))
              (PROT_READ ||| PROT_WRITE) q = true) ∧
          touches env.pagesize.toNat (addr_align env.pagesize (wrap64 t.buf))
            (memlen env.pagesize (wrap64 t.buf) (wrap64 t.len)) q = true
      then PROT_READ ||| PROT_WRITE
      else w.prot q := by
  rw [method_equal_len env w t src pa heq]
  simp only [invalidate_prot, changeProts_posix h, osProtect_prot, memcpy, h, PREAD, PWRITE,
    PEXEC]

theorem method_prot_win32 {env : Env} (h : env.platform = Platform.win32) (w : World)
    (t : Py_buffer) (src : List Nat) (pa : Option Nat) (heq : t.len = src.length) (q : Nat) :
    (method_writeExecutableMemory env w t src pa).1.prot q =
      if (env.permits (wrap64 t.buf) (wrap64 t.len)
              (flags (pa.getD (PREAD Platform.win32 ||| PEXEC Platform.win32))) = true ∨
            env.partly (wrap64 t.buf) (wrap64 t.len)
              (flags (pa.getD (PREAD Platform.win32 ||| PEXEC Platform.win32))) q = true) ∧
          touches env.pagesize.toNat (wrap64 t.buf) (wrap64 t.len) q = true
      then flags (pa.getD (PREAD Platform.win32 ||| PEXEC Platform.win32))
      else if (env.permits (wrap64 t.buf) (wrap64 t.len) PAGE_READWRITE = true ∨
            env.partly (wrap64 t.buf) (wrap64 t.len) PAGE_READWRITE q = true) ∧
          touches env.pagesize.toNat (wrap64 t.buf) (wrap64 t.len) q = true
      then PAGE_READWRITE
      else w.prot q := by
  have hrw : flags (PREAD Platform.win32 ||| PWRITE Platform.win32) = PAGE_READWRITE := by
    decide
  rw [method_equal_len env w t src pa heq]
  simp only [invalidate_prot, changeProts_win32 h, osProtect_prot, memcpy, h, hrw]

/-- What the if-chain of lines 39–47 chooses for a protection word that contains `PREAD`. -/
theorem flags_of_read (P : Nat) (hr : P &&& PREAD Platform.win32 ≠ 0) :
    pageGrantsRead (flags P) = true ∧
    (pageGrantsWrite (flags P) = true ↔ P &&& PWRITE Platform.win32 ≠ 0) ∧
    (pageGrantsExec (flags P) = true ↔ P &&& PEXEC Platform.win32 ≠ 0) := by
  unfold flags
  split_ifs with h1 h2 h3
  · exact ⟨by decide, ⟨fun _ => h1.2.1, fun _ => by decide⟩,
      ⟨fun _ => h1.2.2, fun _ => by decide⟩⟩
  · have hx : ¬ P &&& PEXEC Platform.win32 ≠ 0 := fun hx => h1 ⟨h2.1, h2.2, hx⟩
    exact ⟨by decide, ⟨fun _ => h2.2, fun _ => by decide⟩,
      ⟨fun hf => absurd hf (by decide), fun hf => absurd hf hx⟩⟩
  · have hw : ¬ P &&& PWRITE Platform.win32 ≠ 0 := fun hw => h2 ⟨h3.1, hw⟩
    exact ⟨by decide, ⟨fun hf => absurd hf (by decide), fun hf => absurd hf hw⟩,
      ⟨fun _ => h3.2, fun _ => by decide⟩⟩
  · have hw : ¬ P &&& PWRITE Platform.win32 ≠ 0 := fun hw => h2 ⟨hr, hw⟩
    have hx : ¬ P &&& PEXEC Platform.win32 ≠ 0 := fun hx => h3 ⟨hr, hx⟩
    exact ⟨by decide, ⟨fun hf => absurd hf (by decide), fun hf => absurd hf hw⟩,
      ⟨fun hf => absurd hf (by decide), fun hf => absurd hf hx⟩⟩

/-! ## C1: contents and protection after a successful patch -/

/-- C1, as stated, fails on the Windows branch: a two-byte patch with final protection
`PWRITE | PEXEC`, every protection call accepted, returns `None`, but the page of the target
ends with `PAGE_READONLY`, which is not the requested set and grants neither writing nor
execution. -/
theorem win32_final_protection_differs :
    (method_writeExecutableMemory win4k zeroedRW ⟨4096, 2⟩ [144, 144]
        (some (PWRITE Platform.win32 ||| PEXEC Platform.win32))).2 = PyResult.Py_None ∧
    (method_writeExecutableMemory win4k zeroedRW ⟨4096, 2⟩ [144, 144]
        (some (PWRITE Platform.win32 ||| PEXEC Platform.win32))).1.trace =
      [Effect.protect 4096 2 PAGE_READWRITE true, Effect.copy 4096 2,
        Effect.protect 4096 2 PAGE_READONLY true, Effect.FlushInstructionCache 4096 2] ∧
    touches 4096 4096 2 1 = true ∧
    (method_writeExecutableMemory win4k zeroedRW ⟨4096, 2⟩ [144, 144]
        (some (PWRITE Platform.win32 ||| PEXEC Platform.win32))).1.prot 1 = PAGE_READONLY ∧
    (method_writeExecutableMemory win4k zeroedRW ⟨4096, 2⟩ [144, 144]
        (some (PWRITE Platform.win32 ||| PEXEC Platform.win32))).1.prot 1 ≠
      PWRITE Platform.win32 ||| PEXEC Platform.win32 ∧
    pageGrantsWrite ((method_writeExecutableMemory win4k zeroedRW ⟨4096, 2⟩ [144, 144]
        (some (PWRITE Platform.win32 ||| PEXEC Platform.win32))).1.prot 1) = false ∧
    pageGrantsExec ((method_writeExecutableMemory win4k zeroedRW ⟨4096, 2⟩ [144, 144]
        (some (PWRITE Platform.win32 ||| PEXEC Platform.win32))).1.prot 1) = false := by
  decide

/-- C1, amended. For every target region, every source of the same length and every final
protection (given, or the default when `prot_after` is omitted), on a system whose page size
is a power of two held in an `int`, with the region inside the 64-bit address space and no
protection call of this patch refused: the method returns `None`; every page holding a byte
of the target is writable when the copy runs; the bytes read back from the target are exactly
the source; and every page holding a byte of the target ends with the protection the code
asked for, which on POSIX is the final protection itself and on Windows is the `PAGE_*`
constant chosen by the if-chain.  For a final protection that contains `PREAD` that constant
grants reading, writing exactly when `PWRITE` is in it, and execution exactly when `PEXEC` is
in it. -/
theorem patch_roundtrip (env : Env) (w : World) (t : Py_buffer) (src : List Nat)
    (prot_after : Option Nat) (ps k : Nat)
    (hpage : env.pagesize = (ps : Int)) (hps : ps = 2 ^ k) (hk : k ≤ 30)
    (hbuf : t.buf + t.len < 2 ^ 64) (hlen : t.len < 2 ^ 63)
    (heq : t.len = src.length)
    (hok : ∀ a l p, Effect.protect a l p false ∉
      (method_writeExecutableMemory env w t src prot_after).1.trace.drop w.trace.length) :
    (method_writeExecutableMemory env w t src prot_after).2 = PyResult.Py_None ∧
    (∀ p, touches ps t.buf t.len p = true →
      writable env.platform
        ((changeProts env w t (PREAD env.platform ||| PWRITE env.platform)).prot p) = true) ∧
    load (method_writeExecutableMemory env w t src prot_after).1.mem t.buf t.len = src ∧
    (∀ p, touches ps t.buf t.len p = true →
      (method_writeExecutableMemory env w t src prot_after).1.prot p =
        match env.platform with
        | .posix => prot_after.getD (PREAD .posix ||| PEXEC .posix)
        | .win32 => flags (prot_after.getD (PREAD .win32 ||| PEXEC .win32))) ∧
    (prot_after.getD (PREAD .win32 ||| PEXEC .win32) &&& PREAD .win32 ≠ 0 →
      pageGrantsRead (flags (prot_after.getD (PREAD .win32 ||| PEXEC .win32))) = true ∧
      (pageGrantsWrite (flags (prot_after.getD (PREAD .win32 ||| PEXEC .win32))) = true ↔
        prot_after.getD (PREAD .win32 ||| PEXEC .win32) &&& PWRITE .win32 ≠ 0) ∧
      (pageGrantsExec (flags (prot_after.getD (PREAD .win32 ||| PEXEC .win32))) = true ↔
        prot_after.getD (PREAD .win32 ||| PEXEC .win32) &&& PEXEC .win32 ≠ 0)) := by
  obtain ⟨h0, h1⟩ := pow_bounds hps hk
  have hwb : wrap64 t.buf = t.buf := Nat.mod_eq_of_lt (by omega)
  have hwl : wrap64 t.len = t.len := Nat.mod_eq_of_lt (by omega)
  have hpn : env.pagesize.toNat = ps := by rw [hpage]; rfl
  refine ⟨by rw [method_equal_len env w t src prot_after heq], ?_, ?_, ?_, flags_of_read _⟩
  · intro p hp
    cases hplat : env.platform with
    | posix =>
      rw [method_trace_posix hplat w t src prot_after heq, List.append_assoc,
        List.drop_left] at hok
      have hperm : env.permits (addr_align env.pagesize (wrap64 t.buf))
          (memlen env.pagesize (wrap64 t.buf) (wrap64 t.len))
          (PROT_READ ||| PROT_WRITE) = true := by
        by_contra hc
        rw [Bool.not_eq_true] at hc
        rw [hc] at hok
        exact hok _ _ _ (List.mem_append_left _ (List.mem_cons_self _ _))
      have htouch : touches env.pagesize.toNat (addr_align env.pagesize (wrap64 t.buf))
          (memlen env.pagesize (wrap64 t.buf) (wrap64 t.len)) p = true := by
        rw [hpn, hpage, hwb, hwl, posix_range_touches hps hk hbuf hlen]
        exact ((touches_iff h0 _ _ _).1 hp).2
      rw [changeProts_posix hplat, osProtect_prot]
      simp only [PREAD, PWRITE]
      rw [if_pos ⟨Or.inl hperm, htouch⟩]
      decide
    | win32 =>
      rw [method_trace_win32 hplat w t src prot_after heq, List.drop_left] at hok
      have hrw : flags (PREAD Platform.win32 ||| PWRITE Platform.win32) = PAGE_READWRITE := by
        decide
      have hperm : env.permits (wrap64 t.buf) (wrap64 t.len) PAGE_READWRITE = true := by
        by_contra hc
        rw [Bool.not_eq_true] at hc
        rw [hc] at hok
        exact hok _ _ _ (List.mem_cons_self _ _)
      have htouch : touches env.pagesize.toNat (wrap64 t.buf) (wrap64 t.len) p = true := by
        rw [hpn, hwb, hwl]; exact hp
      rw [changeProts_win32 hplat, osProtect_prot, hrw, if_pos ⟨Or.inl hperm, htouch⟩]
      decide
  · rw [method_mem env w t src prot_after heq, heq, load_store]
  · intro p hp
    cases hplat : env.platform with
    | posix =>
      rw [method_trace_posix hplat w t src prot_after heq, List.append_assoc,
        List.drop_left] at hok
      have hperm : env.permits (addr_align env.pagesize (wrap64 t.buf))
          (memlen env.pagesize (wrap64 t.buf) (wrap64 t.len))
          (prot_after.getD (PROT_READ ||| PROT_EXEC)) = true := by
        by_contra hc
        rw [Bool.not_eq_true] at hc
        rw [hc] at hok
        exact hok _ _ _ (List.mem_append_left _
          (List.mem_cons_of_mem _ (List.mem_cons_of_mem _ (List.mem_cons_self _ _))))
      have htouch : touches env.pagesize.toNat (addr_align env.pagesize (wrap64 t.buf))
          (memlen env.pagesize (wrap64 t.buf) (wrap64 t.len)) p = true := by
        rw [hpn, hpage, hwb, hwl, posix_range_touches hps hk hbuf hlen]
        exact ((touches_iff h0 _ _ _).1 hp).2
      rw [method_prot_posix hplat w t src prot_after heq, if_pos ⟨Or.inl hperm, htouch⟩]
      rfl
    | win32 =>
      rw [method_trace_win32 hplat w t src prot_after heq, List.drop_left] at hok
      have hperm : env.permits (wrap64 t.buf) (wrap64 t.len)
          (flags (prot_after.getD (PREAD Platform.win32 ||| PEXEC Platform.win32))) = true := by
        by_contra hc
        rw [Bool.not_eq_true] at hc
        rw [hc] at hok
        exact hok _ _ _
          (List.mem_cons_of_mem _ (List.mem_cons_of_mem _ (List.mem_cons_self _ _)))
      have htouch : touches env.pagesize.toNat (wrap64 t.buf) (wrap64 t.len) p = true := by
        rw [hpn, hwb, hwl]; exact hp
      rw [method_prot_win32 hplat w t src prot_after heq, if_pos ⟨Or.inl hperm, htouch⟩]

/-- A four-byte patch across the boundary between pages 0 and 1, on POSIX with final
protection read and execute and on Windows with read, write and execute. -/
theorem patch_roundtrip_witness :
    (load (method_writeExecutableMemory posix4k zeroedRO ⟨4094, 4⟩ [144, 144, 144, 144]
        (some 5)).1.mem 4094 4 = [144, 144, 144, 144] ∧
      (method_writeExecutableMemory posix4k zeroedRO ⟨4094, 4⟩ [144, 144, 144, 144]
        (some 5)).1.prot 0 = 5 ∧
      (method_writeExecutableMemory posix4k zeroedRO ⟨4094, 4⟩ [144, 144, 144, 144]
        (some 5)).1.prot 1 = 5) ∧
    (load (method_writeExecutableMemory win4k zeroedRO ⟨4094, 4⟩ [144, 144, 144, 144]
        (some 14)).1.mem 4094 4 = [144, 144, 144, 144] ∧
      (method_writeExecutableMemory win4k zeroedRO ⟨4094, 4⟩ [144, 144, 144, 144]
        (some 14)).1.prot 0 = PAGE_EXECUTE_READWRITE ∧
      (method_writeExecutableMemory win4k zeroedRO ⟨4094, 4⟩ [144, 144, 144, 144]
        (some 14)).1.prot 1 = PAGE_EXECUTE_READWRITE ∧
      pageGrantsWrite (flags 14) = true) :=
  have ht : (method_writeExecutableMemory posix4k zeroedRO ⟨4094, 4⟩ [144, 144, 144, 144]
      (some 5)).1.trace = [Effect.protect 0 8192 3 true, Effect.copy 4094 4,
        Effect.protect 0 8192 5 true, Effect.clear_cache 4094 4098] := by decide
  have hu : (method_writeExecutableMemory win4k zeroedRO ⟨4094, 4⟩ [144, 144, 144, 144]
      (some 14)).1.trace = [Effect.protect 4094 4 4 true, Effect.copy 4094 4,
        Effect.protect 4094 4 64 true, Effect.FlushInstructionCache 4094 4] := by decide
  have h := patch_roundtrip posix4k zeroedRO ⟨4094, 4⟩ [144, 144, 144, 144] (some 5) 4096 12
    rfl (by decide) (by decide) (by decide) (by decide) rfl
    (by intro a l p hm; rw [ht] at hm; simp [zeroedRO] at hm)
  have g := patch_roundtrip win4k zeroedRO ⟨4094, 4⟩ [144, 144, 144, 144] (some 14) 4096 12
    rfl (by decide) (by decide) (by decide) (by decide) rfl
    (by intro a l p hm; rw [hu] at hm; simp [zeroedRO] at hm)
  ⟨⟨h.2.2.1, h.2.2.2.1 0 (by decide), h.2.2.2.1 1 (by decide)⟩,
    ⟨g.2.2.1, g.2.2.2.1 0 (by decide), g.2.2.2.1 1 (by decide),
      (g.2.2.2.2 (by decide)).2.1.2 (by decide)⟩⟩

/-! ## C2: length mismatch -/

/-- C2. When the target and source lengths differ, the method raises `ValueError` with the
message "target and src must be the same length" and the world is the one before the call: no
byte, no page protection and no system call has been added. -/
theorem length_mismatch_rejected (env : Env) (w : World) (t : Py_buffer) (src : List Nat)
    (prot_after : Option Nat) (hne : t.len ≠ src.length) :
    (method_writeExecutableMemory env w t src prot_after).2 =
        PyResult.raised "ValueError" "target and src must be the same length" ∧
      (method_writeExecutableMemory env w t src prot_after).1.mem = w.mem ∧
      (method_writeExecutableMemory env w t src prot_after).1.prot = w.prot ∧
      (method_writeExecutableMemory env w t src prot_after).1.trace = w.trace := by
  unfold method_writeExecutableMemory
  simp [hne]

/-- An eight-byte target with a four-byte source. -/
theorem length_mismatch_rejected_witness :
    (8 : Nat) ≠ [144, 144, 144, 144].length ∧
    (method_writeExecutableMemory posix4k zeroedRO ⟨4096, 8⟩ [144, 144, 144, 144] none).2 =
        PyResult.raised "ValueError" "target and src must be the same length" ∧
    (method_writeExecutableMemory posix4k zeroedRO ⟨4096, 8⟩ [144, 144, 144, 144] none).1.trace
      = [] :=
  have h := length_mismatch_rejected posix4k zeroedRO ⟨4096, 8⟩ [144, 144, 144, 144] none
    (by decide)
  ⟨by decide, h.1, h.2.2.2⟩

/-! ## C5: bytes outside the target -/

/-- C5. After a successful patch every byte at an address outside
`[target.buf, target.buf + target.len)` is what it was before, whatever page it lies on, and
the only copy made by the call is one `memcpy` of `len(src)` bytes to `target.buf`. -/
theorem patch_frame (env : Env) (w : World) (t : Py_buffer) (src : List Nat)
    (prot_after : Option Nat) (heq : t.len = src.length) :
    (method_writeExecutableMemory env w t src prot_after).2 = PyResult.Py_None ∧
    (∀ a, a < t.buf ∨ t.buf + t.len ≤ a →
      (method_writeExecutableMemory env w t src prot_after).1.mem a = w.mem a) ∧
    (∀ d n, Effect.copy d n ∈
        (method_writeExecutableMemory env w t src prot_after).1.trace.drop w.trace.length →
      d = t.buf ∧ n = src.length) := by
  refine ⟨by rw [method_equal_len env w t src prot_after heq], ?_, ?_⟩
  · intro a ha
    rw [method_mem env w t src prot_after heq]
    exact store_outside src w.mem t.buf a (heq ▸ ha)
  · intro d n hm
    cases hplat : env.platform with
    | posix =>
      rw [method_trace_posix hplat w t src prot_after heq, List.append_assoc,
        List.drop_left] at hm
      by_cases hc : env.clear_cache = true <;> simp [hc] at hm <;> omega
    | win32 =>
      rw [method_trace_win32 hplat w t src prot_after heq, List.drop_left] at hm
      simp at hm
      omega

/-- The bytes just before and just after a four-byte target keep their values. -/
theorem patch_frame_witness :
    (method_writeExecutableMemory posix4k (World.mk (fun a => a % 7) (fun _ => 1) [])
        ⟨4094, 4⟩ [144, 144, 144, 144] none).1.mem 4093 = 4093 % 7 ∧
    (method_writeExecutableMemory posix4k (World.mk (fun a => a % 7) (fun _ => 1) [])
        ⟨4094, 4⟩ [144, 144, 144, 144] none).1.mem 4098 = 4098 % 7 :=
  have h := patch_frame posix4k (World.mk (fun a => a % 7) (fun _ => 1) [])
    ⟨4094, 4⟩ [144, 144, 144, 144] none rfl
  ⟨h.2.1 4093 (by decide), h.2.1 4098 (by decide)⟩

/-! ## C3: failure of a protection call -/

/-- C3, as stated, fails: on a system that refuses every protection call, with a target whose
page is already writable, both `mprotect` calls report failure, yet the bytes are copied and
the method returns `None`. -/
theorem protection_failure_not_reported :
    (method_writeExecutableMemory posixRefusing zeroedRW ⟨4100, 2⟩ [7, 8] none).1.trace =
      [Effect.protect 4096 4096 3 false, Effect.copy 4100 2,
        Effect.protect 4096 4096 5 false, Effect.clear_cache 4100 4102] ∧
    (method_writeExecutableMemory posixRefusing zeroedRW ⟨4100, 2⟩ [7, 8] none).2 =
      PyResult.Py_None ∧
    zeroedRW.mem 4100 = 0 ∧
    (method_writeExecutableMemory posixRefusing zeroedRW ⟨4100, 2⟩ [7, 8] none).1.mem 4100 = 7 ∧
    (method_writeExecutableMemory posixRefusing zeroedRW ⟨4100, 2⟩ [7, 8] none).1.mem 4101 = 8 := by
  decide

/-- C3, amended. `changeProts` has no result and does not look at what the system call
returned, so a failed protection change is never reported: the only exception the method
raises is the `ValueError` of unequal lengths.  When the lengths are equal and every page
holding a byte of the target is writable before the call, then whatever the two protection
calls report, and whichever pages a refused call has changed, those pages are writable when
the copy runs, the target reads back as the source, and the method returns `None`. -/
theorem protection_result_discarded (env : Env) (w : World) (t : Py_buffer) (src : List Nat)
    (prot_after : Option Nat) :
    (∀ exc msg, (method_writeExecutableMemory env w t src prot_after).2 =
        PyResult.raised exc msg →
      t.len ≠ src.length ∧ exc = "ValueError" ∧
        msg = "target and src must be the same length") ∧
    (t.len = src.length →
      (∀ p, touches env.pagesize.toNat t.buf t.len p = true →
        writable env.platform (w.prot p) = true) →
      (∀ p, touches env.pagesize.toNat t.buf t.len p = true →
        writable env.platform
          ((changeProts env w t (PREAD env.platform ||| PWRITE env.platform)).prot p) =
            true) ∧
      load (method_writeExecutableMemory env w t src prot_after).1.mem t.buf t.len = src ∧
      (method_writeExecutableMemory env w t src prot_after).2 = PyResult.Py_None) := by
  constructor
  · intro exc msg hr
    by_cases heq : t.len = src.length
    · rw [method_equal_len env w t src prot_after heq] at hr
      cases hr
    · rw [method_mismatch env w t src prot_after heq] at hr
      injection hr with h1 h2
      exact ⟨heq, h1.symm, h2.symm⟩
  · intro heq hw
    refine ⟨?_, ?_, by rw [method_equal_len env w t src prot_after heq]⟩
    · intro p hp
      cases hplat : env.platform with
      | posix =>
        have hwp := hw p hp
        rw [hplat] at hwp
        rw [changeProts_posix hplat, osProtect_prot]
        split_ifs
        · decide
        · exact hwp
      | win32 =>
        have hwp := hw p hp
        rw [hplat] at hwp
        have hrw : flags (PREAD Platform.win32 ||| PWRITE Platform.win32) = PAGE_READWRITE := by
          decide
        rw [changeProts_win32 hplat, osProtect_prot, hrw]
        split_ifs
        · decide
        · exact hwp
    · rw [method_mem env w t src prot_after heq, heq, load_store]

/-- A four-byte patch across two writable pages on a system that refuses every protection call
after changing page 0. -/
theorem protection_result_discarded_witness :
    writable Platform.posix ((changeProts posixHalfway zeroedRW ⟨4094, 4⟩
      (PREAD Platform.posix ||| PWRITE Platform.posix)).prot 1) = true ∧
    load (method_writeExecutableMemory posixHalfway zeroedRW ⟨4094, 4⟩ [7, 8, 9, 10]
      (some 5)).1.mem 4094 4 = [7, 8, 9, 10] ∧
    (method_writeExecutableMemory posixHalfway zeroedRW ⟨4094, 4⟩ [7, 8, 9, 10] (some 5)).2 =
      PyResult.Py_None :=
  have h := (protection_result_discarded posixHalfway zeroedRW ⟨4094, 4⟩ [7, 8, 9, 10]
    (some 5)).2 rfl
    (fun _ _ => (by decide : writable Platform.posix 3 = true))
  ⟨h.1 1 (by decide), h.2.1, h.2.2⟩

/-! ## C4: the page-aligned range of the POSIX branch -/

/-- C4, as stated, fails: with 4096-byte pages and a one-byte target at `2^64 - 2`, the sum
`address + length` is below `2^64`, but `mem_end += pagesize` wraps around to `0`, so
`address + length <= mem_end` does not hold. -/
theorem posix_range_end_wraps :
    (18446744073709551614 : Nat) + 1 < 2 ^ 64 ∧
    mem_end ((2 ^ 12 : Nat) : Int) 18446744073709551614 1 = 0 ∧
    ¬ (18446744073709551614 + 1 ≤ mem_end ((2 ^ 12 : Nat) : Int) 18446744073709551614 1) := by
  decide

/-- C4, amended. For a page size `2^k` that fits an `int` and every address and length with
`address + length + pagesize <= 2^64`: `addr_align <= address`, `address + length <= mem_end`,
both are multiples of the page size, `memlen = mem_end - addr_align`, and every page holding
a byte of the target lies inside `[addr_align, mem_end)`. -/
theorem posix_range_covers (k address length : Nat) (hk : k ≤ 30)
    (h : address + length + 2 ^ k ≤ 2 ^ 64) :
    addr_align ((2 ^ k : Nat) : Int) address ≤ address ∧
    address + length ≤ mem_end ((2 ^ k : Nat) : Int) address length ∧
    2 ^ k ∣ addr_align ((2 ^ k : Nat) : Int) address ∧
    2 ^ k ∣ mem_end ((2 ^ k : Nat) : Int) address length ∧
    memlen ((2 ^ k : Nat) : Int) address length =
      mem_end ((2 ^ k : Nat) : Int) address length - addr_align ((2 ^ k : Nat) : Int) address ∧
    ∀ a, address ≤ a → a < address + length →
      addr_align ((2 ^ k : Nat) : Int) address ≤ 2 ^ k * (a / 2 ^ k) ∧
      2 ^ k * (a / 2 ^ k) + 2 ^ k ≤ mem_end ((2 ^ k : Nat) : Int) address length := by
  obtain ⟨h0, h1⟩ := pow_bounds (rfl : 2 ^ k = 2 ^ k) hk
  have hlt : address + length < 2 ^ 64 := by omega
  have hc := ceil_le h0 (address + length)
  have hd := Nat.div_add_mod address (2 ^ k)
  have hE : mem_end ((2 ^ k : Nat) : Int) address length =
      2 ^ k * ((address + length + 2 ^ k - 1) / 2 ^ k) := by
    rw [mem_end_spec rfl hk hlt]
    exact Nat.mod_eq_of_lt (by omega)
  have hL : memlen ((2 ^ k : Nat) : Int) address length =
      2 ^ k * ((address + length + 2 ^ k - 1) / 2 ^ k) - 2 ^ k * (address / 2 ^ k) := by
    rw [memlen_spec rfl hk hlt]
    exact Nat.mod_eq_of_lt (by omega)
  rw [hE, hL, addr_align_spec rfl hk (by omega)]
  refine ⟨by omega, hc.1, Nat.dvd_mul_right _ _, Nat.dvd_mul_right _ _, rfl, ?_⟩
  intro a ha1 ha2
  constructor
  · exact Nat.mul_le_mul_left _ (Nat.div_le_div_right ha1)
  · have hda := Nat.div_add_mod a (2 ^ k)
    have : a / 2 ^ k < (address + length + 2 ^ k - 1) / 2 ^ k := by
      rw [lt_ceil_iff h0, Nat.mul_comm]
      omega
    have := Nat.mul_le_mul_left (2 ^ k) (Nat.succ_le_of_lt this)
    rw [Nat.mul_succ] at this
    exact this

/-- A four-byte target starting two bytes before the end of page 0. -/
theorem posix_range_covers_witness :
    addr_align ((2 ^ 12 : Nat) : Int) 4094 ≤ 4094 ∧
    4094 + 4 ≤ mem_end ((2 ^ 12 : Nat) : Int) 4094 4 ∧
    memlen ((2 ^ 12 : Nat) : Int) 4094 4 =
      mem_end ((2 ^ 12 : Nat) : Int) 4094 4 - addr_align ((2 ^ 12 : Nat) : Int) 4094 ∧
    2 ^ 12 * (4097 / 2 ^ 12) + 2 ^ 12 ≤ mem_end ((2 ^ 12 : Nat) : Int) 4094 4 :=
  have h := posix_range_covers 12 4094 4 (by decide) (by decide)
  ⟨h.1, h.2.1, h.2.2.2.2.1, (h.2.2.2.2.2 4097 (by decide) (by decide)).2⟩

/-! ## C10: the POSIX range is tight -/

/-- C10. For a page size `2^k` that fits an `int`, every address and every length of at least
one byte with `address + length < 2^64`: the start is rounded down by less than a page, the end
is rounded up by less than a page (as an integer difference and in 64-bit arithmetic), `memlen`
is a multiple of the page size below `length + 2 * pagesize`, and every page whose protection
`mprotect` is asked to change holds a byte of the target; when the length fits a `Py_ssize_t`,
the pages of the range are exactly the pages holding a byte of the target. -/
theorem posix_range_tight (k address length : Nat) (hk : k ≤ 30) (hlen : 1 ≤ length)
    (h : address + length < 2 ^ 64) :
    addr_align ((2 ^ k : Nat) : Int) address ≤ address ∧
    address - addr_align ((2 ^ k : Nat) : Int) address < 2 ^ k ∧
    (mem_end ((2 ^ k : Nat) : Int) address length : Int) - ((address + length : Nat) : Int) <
      ((2 ^ k : Nat) : Int) ∧
    sub64 (mem_end ((2 ^ k : Nat) : Int) address length) (address + length) < 2 ^ k ∧
    2 ^ k ∣ memlen ((2 ^ k : Nat) : Int) address length ∧
    memlen ((2 ^ k : Nat) : Int) address length < length + 2 * 2 ^ k ∧
    (∀ p, touches (2 ^ k) (addr_align ((2 ^ k : Nat) : Int) address)
        (memlen ((2 ^ k : Nat) : Int) address length) p = true →
      touches (2 ^ k) address length p = true) ∧
    (length < 2 ^ 63 → ∀ p, touches (2 ^ k) (addr_align ((2 ^ k : Nat) : Int) address)
        (memlen ((2 ^ k : Nat) : Int) address length) p = touches (2 ^ k) address length p) := by
  obtain ⟨h0, h1⟩ := pow_bounds (rfl : 2 ^ k = 2 ^ k) hk
  have hc := ceil_le h0 (address + length)
  have hd := Nat.div_add_mod address (2 ^ k)
  have hr := Nat.mod_lt address h0
  have hdvd : 2 ^ k ∣ 2 ^ 64 := Nat.pow_dvd_pow 2 (by omega)
  have hE64 : 2 ^ k * ((address + length + 2 ^ k - 1) / 2 ^ k) ≤ 2 ^ 64 := by
    obtain ⟨c, hc2⟩ := hdvd
    rw [hc2]
    apply Nat.mul_le_mul_left
    by_contra hcon
    have : 2 ^ k * (c + 1) ≤ 2 ^ k * ((address + length + 2 ^ k - 1) / 2 ^ k) :=
      Nat.mul_le_mul_left _ (by omega)
    rw [Nat.mul_add] at this
    omega
  have hEA : 2 ^ k ∣ 2 ^ k * ((address + length + 2 ^ k - 1) / 2 ^ k) -
      2 ^ k * (address / 2 ^ k) :=
    Nat.dvd_sub' (Nat.dvd_mul_right _ _) (Nat.dvd_mul_right _ _)
  have hiff : ∀ p, touches (2 ^ k) address length p = true ↔
      address / 2 ^ k ≤ p ∧ p * 2 ^ k < address + length := by
    intro p
    rw [touches_iff h0]
    constructor
    · exact fun hx => hx.2
    · exact fun hx => ⟨hlen, hx⟩
  rw [mem_end_spec rfl hk h, memlen_spec rfl hk h, addr_align_spec rfl hk (by omega)]
  refine ⟨by omega, by omega, ?_, ?_, (Nat.dvd_mod_iff hdvd).2 hEA, ?_, ?_, ?_⟩
  · have := Nat.mod_le (2 ^ k * ((address + length + 2 ^ k - 1) / 2 ^ k)) (2 ^ 64)
    omega
  · unfold sub64
    generalize 2 ^ k * ((address + length + 2 ^ k - 1) / 2 ^ k) = E at *
    norm_num at *
    omega
  · have := Nat.mod_le (2 ^ k * ((address + length + 2 ^ k - 1) / 2 ^ k) -
      2 ^ k * (address / 2 ^ k)) (2 ^ 64)
    omega
  · intro p hp
    by_cases hsmall : 2 ^ k * ((address + length + 2 ^ k - 1) / 2 ^ k) -
        2 ^ k * (address / 2 ^ k) < 2 ^ 64
    · rw [Nat.mod_eq_of_lt hsmall, touches_range h0] at hp
      exact (hiff p).2 hp
    · have hz : 2 ^ k * ((address + length + 2 ^ k - 1) / 2 ^ k) -
          2 ^ k * (address / 2 ^ k) = 2 ^ 64 := by omega
      rw [hz, Nat.mod_self, touches_iff h0] at hp
      omega
  · intro hl p
    have hsmall : 2 ^ k * ((address + length + 2 ^ k - 1) / 2 ^ k) -
        2 ^ k * (address / 2 ^ k) < 2 ^ 64 := by
      norm_num at *
      omega
    rw [Nat.mod_eq_of_lt hsmall, Bool.eq_iff_iff, touches_range h0, hiff]

/-- A four-byte target starting two bytes before the end of page 0, seen from page 2. -/
theorem posix_range_tight_witness :
    4094 - addr_align ((2 ^ 12 : Nat) : Int) 4094 < 2 ^ 12 ∧
    sub64 (mem_end ((2 ^ 12 : Nat) : Int) 4094 4) (4094 + 4) < 2 ^ 12 ∧
    memlen ((2 ^ 12 : Nat) : Int) 4094 4 < 4 + 2 * 2 ^ 12 ∧
    touches (2 ^ 12) (addr_align ((2 ^ 12 : Nat) : Int) 4094)
      (memlen ((2 ^ 12 : Nat) : Int) 4094 4) 2 = touches (2 ^ 12) 4094 4 2 :=
  have h := posix_range_tight 12 4094 4 (by decide) (by decide) (by decide)
  ⟨h.2.1, h.2.2.2.1, h.2.2.2.2.2.1, h.2.2.2.2.2.2.2 (by decide) 2⟩

/-! ## C6: zero-length target -/

/-- C6, as stated, fails: a zero-length patch at the page-aligned address 4096 with final
protection `PROT_READ | PROT_EXEC` returns `None` with every call accepted, but both
`mprotect` calls have length 0 and the page at that address keeps `PROT_READ`. -/
theorem zero_length_aligned_keeps_protection :
    (method_writeExecutableMemory posix4k zeroedRO ⟨4096, 0⟩ [] (some 5)).2 =
      PyResult.Py_None ∧
    (method_writeExecutableMemory posix4k zeroedRO ⟨4096, 0⟩ [] (some 5)).1.trace =
      [Effect.protect 4096 0 3 true, Effect.copy 4096 0, Effect.protect 4096 0 5 true,
        Effect.clear_cache 4096 4096] ∧
    (method_writeExecutableMemory posix4k zeroedRO ⟨4096, 0⟩ [] (some 5)).1.prot (4096 / 4096)
      = 1 ∧
    (method_writeExecutableMemory posix4k zeroedRO ⟨4096, 0⟩ [] (some 5)).1.prot (4096 / 4096)
      ≠ 5 := by
  decide

/-- C6, amended. For a zero-length target at any address and any final protection the method
returns `None`, leaves every byte as it was and still makes both protection calls.  On POSIX,
when the address is not page-aligned the calls cover the one page holding the address, which
ends with the final protection once the final call is accepted; when the address is
page-aligned the calls have length 0 and no page protection changes.  On Windows the calls
have length 0 and no page protection changes. -/
theorem zero_length_patch (env : Env) (w : World) (buf : Nat) (prot_after : Option Nat)
    (k : Nat) (hpage : env.pagesize = ((2 ^ k : Nat) : Int)) (hk : k ≤ 30)
    (hbuf : buf < 2 ^ 64) :
    (method_writeExecutableMemory env w ⟨buf, 0⟩ [] prot_after).2 = PyResult.Py_None ∧
    (method_writeExecutableMemory env w ⟨buf, 0⟩ [] prot_after).1.mem = w.mem ∧
    (env.platform = Platform.posix →
      (method_writeExecutableMemory env w ⟨buf, 0⟩ [] prot_after).1.trace =
        w.trace ++
          [Effect.protect (addr_align ((2 ^ k : Nat) : Int) buf)
              (memlen ((2 ^ k : Nat) : Int) buf 0) (PROT_READ ||| PROT_WRITE)
              (env.permits (addr_align ((2 ^ k : Nat) : Int) buf)
                (memlen ((2 ^ k : Nat) : Int) buf 0) (PROT_READ ||| PROT_WRITE)),
            Effect.copy buf 0,
            Effect.protect (addr_align ((2 ^ k : Nat) : Int) buf)
              (memlen ((2 ^ k : Nat) : Int) buf 0) (prot_after.getD (PROT_READ ||| PROT_EXEC))
              (env.permits (addr_align ((2 ^ k : Nat) : Int) buf)
                (memlen ((2 ^ k : Nat) : Int) buf 0)
                (prot_after.getD (PROT_READ ||| PROT_EXEC)))] ++
          (if env.clear_cache then [Effect.clear_cache buf (buf + 0)] else []) ∧
      (buf % 2 ^ k ≠ 0 →
        memlen ((2 ^ k : Nat) : Int) buf 0 = 2 ^ k ∧
        (env.permits (addr_align ((2 ^ k : Nat) : Int) buf)
            (memlen ((2 ^ k : Nat) : Int) buf 0)
            (prot_after.getD (PROT_READ ||| PROT_EXEC)) = true →
          (method_writeExecutableMemory env w ⟨buf, 0⟩ [] prot_after).1.prot (buf / 2 ^ k) =
            prot_after.getD (PROT_READ ||| PROT_EXEC))) ∧
      (buf % 2 ^ k = 0 →
        memlen ((2 ^ k : Nat) : Int) buf 0 = 0 ∧
        ∀ q, (method_writeExecutableMemory env w ⟨buf, 0⟩ [] prot_after).1.prot q =
          w.prot q)) ∧
    (env.platform = Platform.win32 →
      (method_writeExecutableMemory env w ⟨buf, 0⟩ [] prot_after).1.trace =
        w.trace ++
          [Effect.protect buf 0 PAGE_READWRITE (env.permits buf 0 PAGE_READWRITE),
            Effect.copy buf 0,
            Effect.protect buf 0
              (flags (prot_after.getD (PREAD Platform.win32 ||| PEXEC Platform.win32)))
              (env.permits buf 0
                (flags (prot_after.getD (PREAD Platform.win32 ||| PEXEC Platform.win32)))),
            Effect.FlushInstructionCache buf 0] ∧
      ∀ q, (method_writeExecutableMemory env w ⟨buf, 0⟩ [] prot_after).1.prot q = w.prot q) := by
  obtain ⟨h0, h1⟩ := pow_bounds (rfl : 2 ^ k = 2 ^ k) hk
  have hwb : wrap64 buf = buf := Nat.mod_eq_of_lt hbuf
  have hw0 : wrap64 0 = 0 := rfl
  have heq : (Py_buffer.mk buf 0).len = ([] : List Nat).length := rfl
  have hpn : env.pagesize.toNat = 2 ^ k := by rw [hpage]; rfl
  have hd := Nat.div_add_mod buf (2 ^ k)
  have hL : memlen ((2 ^ k : Nat) : Int) buf 0 =
      2 ^ k * ((buf + 0 + 2 ^ k - 1) / 2 ^ k) - 2 ^ k * (buf / 2 ^ k) := by
    have hc := ceil_le h0 (buf + 0)
    rw [memlen_spec rfl hk (by omega)]
    apply Nat.mod_eq_of_lt
    norm_num at *
    omega
  refine ⟨by rw [method_equal_len env w _ _ prot_after heq], ?_, ?_, ?_⟩
  · rw [method_mem env w _ _ prot_after heq]; rfl
  · intro hplat
    refine ⟨?_, ?_, ?_⟩
    · have hwe : wrap64 (buf + 0) = buf + 0 := Nat.mod_eq_of_lt (by omega)
      rw [method_trace_posix hplat w _ _ prot_after heq, hpage]
      simp only [hwb, hw0, hwe]
    · intro hna
      have hLps : memlen ((2 ^ k : Nat) : Int) buf 0 = 2 ^ k := by
        rw [hL, ceil_mul h0, if_neg (by simpa using hna)]
        simp only [Nat.add_zero]
        omega
      refine ⟨hLps, fun hperm => ?_⟩
      rw [method_prot_posix hplat w _ _ prot_after heq, if_pos]
      simp only [hwb, hw0, hpage] at hperm ⊢
      refine ⟨Or.inl hperm, ?_⟩
      rw [Int.toNat_ofNat, hL, addr_align_spec rfl hk hbuf, touches_range h0]
      have hr := Nat.mod_lt buf h0
      refine ⟨le_refl _, ?_⟩
      rw [Nat.mul_comm]
      omega
    · intro ha
      have hLz : memlen ((2 ^ k : Nat) : Int) buf 0 = 0 := by
        rw [hL, ceil_mul h0, if_pos (by simpa using ha)]
        simp only [Nat.add_zero]
        omega
      refine ⟨hLz, fun q => ?_⟩
      rw [method_prot_posix hplat w _ _ prot_after heq]
      simp only [hwb, hw0, hpage, hLz]
      simp [touches]
  · intro hplat
    refine ⟨?_, fun q => ?_⟩
    · rw [method_trace_win32 hplat w _ _ prot_after heq]
      simp only [hwb, hw0]
    · rw [method_prot_win32 hplat w _ _ prot_after heq]
      simp only [hwb, hw0]
      simp [touches]

/-- A zero-length patch at the unaligned address 4100. -/
theorem zero_length_patch_witness :
    (method_writeExecutableMemory posix4k zeroedRO ⟨4100, 0⟩ [] (some 5)).2 =
      PyResult.Py_None ∧
    memlen ((2 ^ 12 : Nat) : Int) 4100 0 = 2 ^ 12 ∧
    (method_writeExecutableMemory posix4k zeroedRO ⟨4100, 0⟩ [] (some 5)).1.prot
      (4100 / 2 ^ 12) = 5 :=
  have h := zero_length_patch posix4k zeroedRO 4100 (some 5) 12 rfl (by decide) (by decide)
  ⟨h.1, ((h.2.2.1 rfl).2.1 (by decide)).1, ((h.2.2.1 rfl).2.1 (by decide)).2 rfl⟩

/-! ## C7: which permissions the requested protection grants -/

/-- C7, as stated, fails on the Windows branch: for the set {Write, Execute} (`PWRITE | PEXEC`)
the if-chain falls through to `PAGE_READONLY`, which grants neither writing nor execution. -/
theorem win32_write_exec_gets_readonly :
    (PWRITE Platform.win32 ||| PEXEC Platform.win32) &&& PWRITE Platform.win32 ≠ 0 ∧
    (PWRITE Platform.win32 ||| PEXEC Platform.win32) &&& PEXEC Platform.win32 ≠ 0 ∧
    (changeProts win4k zeroedRW ⟨4096, 16⟩
        (PWRITE Platform.win32 ||| PEXEC Platform.win32)).trace =
      [Effect.protect 4096 16 PAGE_READONLY true] ∧
    pageGrantsWrite (flags (PWRITE Platform.win32 ||| PEXEC Platform.win32)) = false ∧
    pageGrantsExec (flags (PWRITE Platform.win32 ||| PEXEC Platform.win32)) = false := by
  decide

/-- C7, amended. On POSIX the protection word is passed to `mprotect` unchanged, whatever it
is.  On Windows `VirtualProtect` receives the constant chosen by the if-chain; for every
protection word that contains `PREAD`, or contains neither `PWRITE` nor `PEXEC`, that constant
grants writing exactly when `PWRITE` is in the word and execution exactly when `PEXEC` is in
the word; for a word that contains `PREAD` it also grants reading. -/
theorem requested_protection_grants (env : Env) (w : World) (b : Py_buffer) (P : Nat) :
    (env.platform = Platform.posix →
      (changeProts env w b P).trace = w.trace ++
        [Effect.protect (addr_align env.pagesize (wrap64 b.buf))
          (memlen env.pagesize (wrap64 b.buf) (wrap64 b.len)) P
          (env.permits (addr_align env.pagesize (wrap64 b.buf))
            (memlen env.pagesize (wrap64 b.buf) (wrap64 b.len)) P)]) ∧
    (env.platform = Platform.win32 →
      (changeProts env w b P).trace = w.trace ++
        [Effect.protect (wrap64 b.buf) (wrap64 b.len) (flags P)
          (env.permits (wrap64 b.buf) (wrap64 b.len) (flags P))]) ∧
    (P &&& PREAD Platform.win32 ≠ 0 → pageGrantsRead (flags P) = true) ∧
    (P &&& PREAD Platform.win32 ≠ 0 ∨
        (P &&& PWRITE Platform.win32 = 0 ∧ P &&& PEXEC Platform.win32 = 0) →
      (pageGrantsWrite (flags P) = true ↔ P &&& PWRITE Platform.win32 ≠ 0) ∧
      (pageGrantsExec (flags P) = true ↔ P &&& PEXEC Platform.win32 ≠ 0)) := by
  refine ⟨?_, ?_, ?_, ?_⟩
  · intro h; rw [changeProts_posix h, osProtect_trace]
  · intro h; rw [changeProts_win32 h, osProtect_trace]
  · intro _
    unfold flags
    split_ifs <;> decide
  · intro h
    unfold flags
    split_ifs with h1 h2 h3
    · exact ⟨⟨fun _ => h1.2.1, fun _ => by decide⟩, ⟨fun _ => h1.2.2, fun _ => by decide⟩⟩
    · have hx : ¬ P &&& PEXEC Platform.win32 ≠ 0 := fun hx => h1 ⟨h2.1, h2.2, hx⟩
      exact ⟨⟨fun _ => h2.2, fun _ => by decide⟩, ⟨fun hf => absurd hf (by decide), fun hf => absurd hf hx⟩⟩
    · have hw : ¬ P &&& PWRITE Platform.win32 ≠ 0 := fun hw => h2 ⟨h3.1, hw⟩
      exact ⟨⟨fun hf => absurd hf (by decide), fun hf => absurd hf hw⟩, ⟨fun _ => h3.2, fun _ => by decide⟩⟩
    · have hw : ¬ P &&& PWRITE Platform.win32 ≠ 0 := by
        intro hw
        rcases h with h | h
        · exact h2 ⟨h, hw⟩
        · exact hw h.1
      have hx : ¬ P &&& PEXEC Platform.win32 ≠ 0 := by
        intro hx
        rcases h with h | h
        · exact h3 ⟨h, hx⟩
        · exact hx h.2
      exact ⟨⟨fun hf => absurd hf (by decide), fun hf => absurd hf hw⟩,
        ⟨fun hf => absurd hf (by decide), fun hf => absurd hf hx⟩⟩

/-- Read, write and execute together, on POSIX and on Windows. -/
theorem requested_protection_grants_witness :
    (changeProts posix4k zeroedRW ⟨4100, 2⟩ 7).trace = [Effect.protect 4096 4096 7 true] ∧
    (changeProts win4k zeroedRW ⟨4100, 2⟩ 14).trace =
      [Effect.protect 4100 2 PAGE_EXECUTE_READWRITE true] ∧
    (pageGrantsWrite (flags 14) = true ↔ 14 &&& PWRITE Platform.win32 ≠ 0) ∧
    (pageGrantsExec (flags 14) = true ↔ 14 &&& PEXEC Platform.win32 ≠ 0) :=
  ⟨(requested_protection_grants posix4k zeroedRW ⟨4100, 2⟩ 7).1 rfl,
    (requested_protection_grants win4k zeroedRW ⟨4100, 2⟩ 14).2.1 rfl,
    (requested_protection_grants win4k zeroedRW ⟨4100, 2⟩ 14).2.2.2 (Or.inl (by decide))⟩

/-! ## C8: the default final protection -/

/-- C8. When `prot_after` is omitted, every protection the call asks for is either read and
write without execute or read and execute without write (on POSIX the words `PREAD | PWRITE`
and `PREAD | PEXEC`, on Windows `PAGE_READWRITE` and `PAGE_EXECUTE_READ`), and when the lengths
are equal it asks for exactly these two, in this order, the first before the copy and the
second after it; so every page ends with the protection it had, or with one of these two, and
is never given write together with execute. -/
theorem default_protection_never_write_exec (env : Env) (w : World) (t : Py_buffer)
    (src : List Nat) :
    (env.platform = Platform.posix →
      (∀ a l p ok, Effect.protect a l p ok ∈
          (method_writeExecutableMemory env w t src none).1.trace.drop w.trace.length →
        p = PREAD Platform.posix ||| PWRITE Platform.posix ∨
          p = PREAD Platform.posix ||| PEXEC Platform.posix) ∧
      (t.len = src.length →
        (method_writeExecutableMemory env w t src none).1.trace.drop w.trace.length =
          [Effect.protect (addr_align env.pagesize (wrap64 t.buf))
              (memlen env.pagesize (wrap64 t.buf) (wrap64 t.len))
              (PREAD Platform.posix ||| PWRITE Platform.posix)
              (env.permits (addr_align env.pagesize (wrap64 t.buf))
                (memlen env.pagesize (wrap64 t.buf) (wrap64 t.len))
                (PREAD Platform.posix ||| PWRITE Platform.posix)),
            Effect.copy t.buf t.len,
            Effect.protect (addr_align env.pagesize (wrap64 t.buf))
              (memlen env.pagesize (wrap64 t.buf) (wrap64 t.len))
              (PREAD Platform.posix ||| PEXEC Platform.posix)
              (env.permits (addr_align env.pagesize (wrap64 t.buf))
                (memlen env.pagesize (wrap64 t.buf) (wrap64 t.len))
                (PREAD Platform.posix ||| PEXEC Platform.posix))] ++
            (if env.clear_cache then [Effect.clear_cache t.buf (wrap64 (t.buf + t.len))]
              else [])) ∧
      ∀ q, (method_writeExecutableMemory env w t src none).1.prot q = w.prot q ∨
        (method_writeExecutableMemory env w t src none).1.prot q =
          PREAD Platform.posix ||| PWRITE Platform.posix ∨
        (method_writeExecutableMemory env w t src none).1.prot q =
          PREAD Platform.posix ||| PEXEC Platform.posix) ∧
    (env.platform = Platform.win32 →
      (∀ a l p ok, Effect.protect a l p ok ∈
          (method_writeExecutableMemory env w t src none).1.trace.drop w.trace.length →
        p = PAGE_READWRITE ∨ p = PAGE_EXECUTE_READ) ∧
      (t.len = src.length →
        (method_writeExecutableMemory env w t src none).1.trace.drop w.trace.length =
          [Effect.protect (wrap64 t.buf) (wrap64 t.len) PAGE_READWRITE
              (env.permits (wrap64 t.buf) (wrap64 t.len) PAGE_READWRITE),
            Effect.copy t.buf t.len,
            Effect.protect (wrap64 t.buf) (wrap64 t.len) PAGE_EXECUTE_READ
              (env.permits (wrap64 t.buf) (wrap64 t.len) PAGE_EXECUTE_READ),
            Effect.FlushInstructionCache t.buf t.len]) ∧
      ∀ q, (method_writeExecutableMemory env w t src none).1.prot q = w.prot q ∨
        (method_writeExecutableMemory env w t src none).1.prot q = PAGE_READWRITE ∨
        (method_writeExecutableMemory env w t src none).1.prot q = PAGE_EXECUTE_READ) ∧
    ((PREAD Platform.posix ||| PWRITE Platform.posix) &&& PREAD Platform.posix ≠ 0 ∧
      (PREAD Platform.posix ||| PWRITE Platform.posix) &&& PWRITE Platform.posix ≠ 0 ∧
      (PREAD Platform.posix ||| PWRITE Platform.posix) &&& PEXEC Platform.posix = 0) ∧
    ((PREAD Platform.posix ||| PEXEC Platform.posix) &&& PREAD Platform.posix ≠ 0 ∧
      (PREAD Platform.posix ||| PEXEC Platform.posix) &&& PEXEC Platform.posix ≠ 0 ∧
      (PREAD Platform.posix ||| PEXEC Platform.posix) &&& PWRITE Platform.posix = 0) ∧
    (pageGrantsRead PAGE_READWRITE = true ∧ pageGrantsWrite PAGE_READWRITE = true ∧
      pageGrantsExec PAGE_READWRITE = false) ∧
    (pageGrantsRead PAGE_EXECUTE_READ = true ∧ pageGrantsExec PAGE_EXECUTE_READ = true ∧
      pageGrantsWrite PAGE_EXECUTE_READ = false) := by
  refine ⟨?_, ?_, by decide, by decide, by decide, by decide⟩
  · intro hplat
    by_cases heq : t.len = src.length
    · have htr := method_trace_posix hplat w t src none heq
      rw [List.append_assoc] at htr
      refine ⟨?_, fun _ => ?_, fun q => ?_⟩
      · intro a l p ok hm
        rw [htr, List.drop_left] at hm
        by_cases hc : env.clear_cache = true <;>
          simp [hc, PREAD, PWRITE, PEXEC] at hm ⊢ <;> omega
      · rw [htr, List.drop_left]
        rfl
      · rw [method_prot_posix hplat w t src none heq]
        simp only [Option.getD_none, PREAD, PWRITE, PEXEC]
        split_ifs <;> simp
    · have hr := method_mismatch env w t src none heq
      refine ⟨?_, fun h => absurd h heq, fun q => Or.inl (by rw [hr])⟩
      intro a l p ok hm
      rw [hr] at hm
      simp at hm
  · intro hplat
    have hrx : flags (PREAD Platform.win32 ||| PEXEC Platform.win32) = PAGE_EXECUTE_READ := by
      decide
    by_cases heq : t.len = src.length
    · have htr := method_trace_win32 hplat w t src none heq
      simp only [Option.getD_none, hrx] at htr
      refine ⟨?_, fun _ => ?_, fun q => ?_⟩
      · intro a l p ok hm
        rw [htr, List.drop_left] at hm
        simp at hm
        omega
      · rw [htr, List.drop_left]
      · rw [method_prot_win32 hplat w t src none heq]
        simp only [Option.getD_none, hrx]
        split_ifs <;> simp
    · have hr := method_mismatch env w t src none heq
      refine ⟨?_, fun h => absurd h heq, fun q => Or.inl (by rw [hr])⟩
      intro a l p ok hm
      rw [hr] at hm
      simp at hm

/-- The two protection words of a default patch, on POSIX and on Windows. -/
theorem default_protection_never_write_exec_witness :
    (method_writeExecutableMemory posix4k zeroedRO ⟨4094, 4⟩ [144, 144, 144, 144]
        none).1.trace.drop zeroedRO.trace.length =
      [Effect.protect 0 8192 3 true, Effect.copy 4094 4, Effect.protect 0 8192 5 true,
        Effect.clear_cache 4094 4098] ∧
    (method_writeExecutableMemory win4k zeroedRO ⟨4094, 4⟩ [144, 144, 144, 144]
        none).1.trace.drop zeroedRO.trace.length =
      [Effect.protect 4094 4 PAGE_READWRITE true, Effect.copy 4094 4,
        Effect.protect 4094 4 PAGE_EXECUTE_READ true, Effect.FlushInstructionCache 4094 4] :=
  ⟨((default_protection_never_write_exec posix4k zeroedRO ⟨4094, 4⟩
      [144, 144, 144, 144]).1 rfl).2.1 rfl,
    ((default_protection_never_write_exec win4k zeroedRO ⟨4094, 4⟩
      [144, 144, 144, 144]).2.1 rfl).2.1 rfl⟩

/-! ## C9: the order of the effects -/

end Fishhook
